import Mathlib

/-!
Shallow embedding of `src/ws281x.py` (class `LedControllerWS281X`): a text →
bit-sequence renderer for a serpentine-wired LED matrix.  Python lists become
Lean `List`s, strings become `String`/`List Char`, machine ints become
`Int`/`Nat` (no overflow is possible in the source's ranges), and the
`raise`/`exit(1)` construction failure becomes `Except`.  Loops are embedded
as structural or well-founded recursion mirroring the source's control flow.
-/

namespace LedControllerWS281X

/-! ### Font table (class variables, source lines 57-82) -/

/-- Source: `free = "00000000"`. -/
def free : String := "00000000"

/-- Source: `dot = "00010000"` (present in the class, unused by the pipeline). -/
def dot : String := "00010000"

/-- Source: `zero_0`. -/
def zero_0 : String := "11111111100000011000000111111111"

/-- Source: `one_1`. -/
def one_1 : String := "00000000000000001111111100000000"

/-- Source: `two_2`. -/
def two_2 : String := "10011111100100011001000111110001"

/-- Source: `three_3`. -/
def three_3 : String := "10000001100100011001000111111111"

/-- Source: `four_4`. -/
def four_4 : String := "11110000000100000001000011111111"

/-- Source: `five_5`. -/
def five_5 : String := "11110001100100011001000110011111"

/-- Source: `six_6`. -/
def six_6 : String := "11111111100100011001000110011111"

/-- Source: `seven_7`. -/
def seven_7 : String := "10000000100000001000000011111111"

/-- Source: `eight_8`. -/
def eight_8 : String := "11111111100100011001000111111111"

/-- Source: `nine_9`. -/
def nine_9 : String := "11110001100100011001000111111111"

/-- Source: the `numbers_dict` class dictionary (lines 70-82).  A Python dict
lookup on a missing key raises; here a missing key is `none`. -/
def numbersDict (c : Char) : Option String :=
  if c = ' ' then some free
  else if c = '0' then some zero_0
  else if c = '1' then some one_1
  else if c = '2' then some two_2
  else if c = '3' then some three_3
  else if c = '4' then some four_4
  else if c = '5' then some five_5
  else if c = '6' then some six_6
  else if c = '7' then some seven_7
  else if c = '8' then some eight_8
  else if c = '9' then some nine_9
  else none

/-! ### `__is_digit` (lines 96-109) -/

/-- Source: `__is_digit`: true iff `48 <= ord(c) <= 57 or ord(c) == 32`. -/
def isDigit (c : Char) : Bool :=
  (48 ≤ c.toNat && c.toNat ≤ 57) || c.toNat == 32

/-! ### `__create_first_led_numbers_array` (lines 111-143) -/

/-- Source: the `while i < self.NUM_LEDS` loop of
`__create_first_led_numbers_array` (lines 136-143): each pass appends
`first = i + 2*rows - 1`, advances `i` by `2*rows`, and appends the new `i`
unless it equals `numLeds`.  The `0 < rows` guard makes the recursion
well-founded; the loop is only ever entered with `rows ≥ 1` because the
validation at lines 130-134 raised otherwise. -/
def firstLedLoop (rows numLeds i : Nat) : List Nat :=
  if h : 0 < rows ∧ i < numLeds then
    let first := i + 2 * rows - 1
    let i2 := i + 2 * rows
    ([first] ++ (if i2 ≠ numLeds then [i2] else [])) ++ firstLedLoop rows numLeds i2
  else
    []
termination_by numLeds - i
decreasing_by
  omega

/-- Source: `__create_first_led_numbers_array` after validation passed:
`FIRST_LED` starts as `[0]` (line 88) and the loop appends to it. -/
def createFirstLedNumbersArray (rows cols : Nat) : List Nat :=
  0 :: firstLedLoop rows (rows * cols) 0

/-! ### Construction (`__init__`, lines 84-94) -/

/-- The constructed controller state: the fields set by `__init__`. -/
structure Controller where
  ROWS : Int
  COLS : Int
  NUM_LEDS : Int
  FIRST_LED : List Nat

/-- Source: `__init__` (lines 84-94) together with the validation at the top
of `__create_first_led_numbers_array` (lines 130-134).  The Python code
catches the `ValueError` and calls `exit(1)`, terminating the process, so on
invalid geometry no usable instance ever results; both the raise and the
process exit are embedded as `Except.error`. -/
def init (rows cols : Int) : Except String Controller :=
  if rows < 0 ∨ cols < 0 then
    Except.error ("ROWS and COLS cannot be negative")
  else if rows = 0 ∨ cols = 0 then
    Except.error ("ROWS and COLS must be > 1.")
  else
    Except.ok
      { ROWS := rows
        COLS := cols
        NUM_LEDS := rows * cols
        FIRST_LED := createFirstLedNumbersArray rows.toNat cols.toNat }

/-! ### `__text_to_bit_string` (lines 145-176) -/

/-- Source: one glyph's contribution to `bit_string` (lines 161-166): each
character of `numbers_dict[c]` becomes `0` if it is `'0'`, else `1`.  The
lookup is total in the source because only dictionary keys pass `__is_digit`;
the `getD` default is never reached on such inputs. -/
def glyphBits (c : Char) : List Nat :=
  (((numbersDict c).getD "").data).map (fun b => if b = '0' then 0 else 1)

/-- Source: the nested `for` loops of lines 161-166, accumulating the glyph
bits of every retained character in input order. -/
def encodeBits (textBits : List Char) : List Nat :=
  textBits.flatMap glyphBits

/-- Source: `bit_string` just before length normalization: the glyph bits of
`[i for i in text if self.__is_digit(i)]` (lines 158-166). -/
def rawEncoding (text : String) : List Nat :=
  encodeBits (text.data.filter isDigit)

/-- Source: the `while len(bit_string) > self.NUM_LEDS: bit_string.pop()`
loop (lines 173-174); `pop()` removes the last element. -/
def popLoop (l : List Nat) (n : Nat) : List Nat :=
  if h : l.length > n then popLoop l.dropLast n else l
termination_by l.length
decreasing_by
  simp only [List.length_dropLast]
  omega

/-- Source: the `while len(bit_string) < self.NUM_LEDS: bit_string.append(0)`
loop (lines 169-170). -/
def padLoop (l : List Nat) (n : Nat) : List Nat :=
  if h : l.length < n then padLoop (l ++ [0]) n else l
termination_by n - l.length
decreasing_by
  simp only [List.length_append, List.length_cons, List.length_nil]
  omega

/-- Source: `__text_to_bit_string` (lines 145-176): encode the filtered text,
then right-pad with zeros or pop from the right until the length is exactly
`numLeds`. -/
def textToBitString (numLeds : Nat) (text : String) : List Nat :=
  if (rawEncoding text).length < numLeds then padLoop (rawEncoding text) numLeds
  else if (rawEncoding text).length > numLeds then popLoop (rawEncoding text) numLeds
  else rawEncoding text

/-! ### `__create_columns_array` (lines 178-213) -/

/-- Source: the `for bit in bit_string` loop of `__create_columns_array`
(lines 197-211), carrying the loop state `(byte_array, i, tmp)`: `i == 0`
starts the first chunk, `i % 8 != 0` keeps filling the current chunk, and
otherwise the finished chunk is appended and `tmp` restarts at `[bit]`.
After the loop the final `tmp` is appended (line 211).  The chunk size is the
hardcoded `8` of the source (`i % 8 != 0`, line 204), not `self.ROWS`. -/
def ccaLoop (bits : List Nat) (byteArray : List (List Nat)) (i : Nat)
    (tmp : List Nat) : List (List Nat) :=
  match bits with
  | [] => byteArray ++ [tmp]
  | bit :: rest =>
    if i = 0 then ccaLoop rest byteArray 1 (tmp ++ [bit])
    else if i % 8 ≠ 0 then ccaLoop rest byteArray (i + 1) (tmp ++ [bit])
    else ccaLoop rest (byteArray ++ [tmp]) 1 [bit]

/-- Source: `__create_columns_array` (lines 178-213), starting from
`byte_array = []`, `i = 0`, `tmp = []`. -/
def createColumnsArray (bitString : List Nat) : List (List Nat) :=
  ccaLoop bitString [] 0 []

/-! ### `__arrange_array` (lines 215-244) -/

/-- Source: the `for j in range(len(columns_array))` loop of
`__arrange_array` (lines 228-238): group 0 is kept, odd-indexed groups are
reversed (`[::-1]`), even-indexed groups are kept. -/
def arrangeLoop (columnsArray : List (List Nat)) (j : Nat) : List (List Nat) :=
  match columnsArray with
  | [] => []
  | c :: rest =>
    (if j = 0 then c
     else if j % 2 ≠ 0 then c.reverse
     else c) :: arrangeLoop rest (j + 1)

/-- Source: `__arrange_array` (lines 215-244): reorder the groups, then
flatten them into one list (lines 240-242). -/
def arrangeArray (columnsArray : List (List Nat)) : List Nat :=
  (arrangeLoop columnsArray 0).flatten

/-! ### `run` (lines 272-288) -/

/-- Source: `run` (lines 272-288) with `show=False`: the printing branch has
no effect on the returned value, so the result is the arranged array of the
column split of the text's bit string, with `NUM_LEDS = rows * cols`. -/
def run (rows cols : Nat) (text : String) : List Nat :=
  arrangeArray (createColumnsArray (textToBitString (rows * cols) text))

/-! ### Helper lemmas -/

/-- The pop-while loop truncates from the right: it computes `l.take n`. -/
theorem popLoop_eq_take (l : List Nat) (n : Nat) : popLoop l n = l.take n := by
  rw [popLoop]
  split
  next h =>
    rw [popLoop_eq_take l.dropLast n, List.dropLast_eq_take, List.take_take]
    congr 1
    omega
  next h =>
    rw [List.take_of_length_le]
    omega
termination_by l.length
decreasing_by
  simp only [List.length_dropLast]
  omega

/-- The append-while loop right-pads with zeros up to length `n`. -/
theorem padLoop_eq_append (l : List Nat) (n : Nat) :
    padLoop l n = l ++ List.replicate (n - l.length) 0 := by
  rw [padLoop]
  split
  next h =>
    rw [padLoop_eq_append (l ++ [0]) n, List.append_assoc]
    congr 1
    have hrep : n - l.length = (n - (l ++ [0]).length) + 1 := by
      simp only [List.length_append, List.length_cons, List.length_nil]
      omega
    rw [hrep, List.replicate_succ]
    rfl
  next h =>
    have : n - l.length = 0 := by omega
    rw [this]
    simp
termination_by n - l.length
decreasing_by
  simp only [List.length_append, List.length_cons, List.length_nil]
  omega

/-- Normal form of `__text_to_bit_string`: take the first `n` raw glyph bits,
then pad with zeros up to length `n`. -/
theorem textToBitString_eq (n : Nat) (t : String) :
    textToBitString n t =
      (rawEncoding t).take n ++ List.replicate (n - (rawEncoding t).length) 0 := by
  unfold textToBitString
  split
  next h =>
    rw [padLoop_eq_append, List.take_of_length_le (by omega)]
  next h =>
    split
    next h2 =>
      rw [popLoop_eq_take]
      have : n - (rawEncoding t).length = 0 := by omega
      rw [this]
      simp
    next h2 =>
      have hlen : (rawEncoding t).length = n := by omega
      rw [List.take_of_length_le (by omega)]
      have : n - (rawEncoding t).length = 0 := by omega
      rw [this]
      simp

/-- The bit string always has length exactly `n`. -/
theorem textToBitString_length (n : Nat) (t : String) :
    (textToBitString n t).length = n := by
  rw [textToBitString_eq]
  simp only [List.length_append, List.length_take, List.length_replicate]
  omega

/-- Every raw glyph bit is 0 or 1. -/
theorem mem_encodeBits (cs : List Char) (x : Nat) (hx : x ∈ encodeBits cs) :
    x = 0 ∨ x = 1 := by
  simp only [encodeBits, glyphBits, List.mem_flatMap, List.mem_map] at hx
  obtain ⟨c, -, b, -, hb⟩ := hx
  by_cases hb0 : b = '0' <;> simp [hb0] at hb <;> omega

/-- Every bit of the normalized bit string is 0 or 1. -/
theorem mem_textToBitString (n : Nat) (t : String) (x : Nat)
    (hx : x ∈ textToBitString n t) : x = 0 ∨ x = 1 := by
  rw [textToBitString_eq] at hx
  rcases List.mem_append.mp hx with h | h
  · exact mem_encodeBits _ x (List.mem_of_mem_take h)
  · left
    exact List.eq_of_mem_replicate h

/-- Flattening the column-split loop recovers the chunks seen so far, the
pending chunk, and the unprocessed bits, for every loop state. -/
theorem flatten_ccaLoop (bits : List Nat) (byteArray : List (List Nat))
    (i : Nat) (tmp : List Nat) :
    (ccaLoop bits byteArray i tmp).flatten = byteArray.flatten ++ tmp ++ bits := by
  induction bits generalizing byteArray i tmp with
  | nil => simp [ccaLoop]
  | cons bit rest ih =>
    unfold ccaLoop
    split
    next =>
      rw [ih]
      simp
    next =>
      split
      next =>
        rw [ih]
        simp
      next =>
        rw [ih]
        simp

/-- Splitting the bit string into column groups loses and reorders nothing:
flattening the groups gives back the input. -/
theorem flatten_createColumnsArray (l : List Nat) :
    (createColumnsArray l).flatten = l := by
  unfold createColumnsArray
  rw [flatten_ccaLoop]
  simp

/-- The arrangement step only keeps or reverses each group, so its flattened
output is a permutation of the flattened input, for every start index. -/
theorem arrangeLoop_perm (columnsArray : List (List Nat)) (j : Nat) :
    (arrangeLoop columnsArray j).flatten.Perm columnsArray.flatten := by
  induction columnsArray generalizing j with
  | nil => simp [arrangeLoop]
  | cons c rest ih =>
    unfold arrangeLoop
    simp only [List.flatten_cons]
    refine List.Perm.append ?_ (ih (j + 1))
    split
    next => exact List.Perm.refl c
    next =>
      split
      next => exact List.reverse_perm c
      next => exact List.Perm.refl c

/-- The value returned by `run` is a permutation of the bit canvas. -/
theorem run_perm_textToBitString (rows cols : Nat) (t : String) :
    (run rows cols t).Perm (textToBitString (rows * cols) t) := by
  unfold run arrangeArray
  exact (arrangeLoop_perm (createColumnsArray (textToBitString (rows * cols) t)) 0).trans
    (by rw [flatten_createColumnsArray])

/-- One pass of the first-light loop while `i < numLeds` and `0 < rows`. -/
theorem firstLedLoop_step (rows numLeds i : Nat) (h : 0 < rows)
    (hi : i < numLeds) :
    firstLedLoop rows numLeds i =
      ([i + 2 * rows - 1] ++ (if i + 2 * rows ≠ numLeds then [i + 2 * rows] else []))
        ++ firstLedLoop rows numLeds (i + 2 * rows) := by
  rw [firstLedLoop, dif_pos ⟨h, hi⟩]

/-- The first-light loop stops once `i` reaches `numLeds`. -/
theorem firstLedLoop_stop (rows numLeds i : Nat)
    (h : ¬(0 < rows ∧ i < numLeds)) : firstLedLoop rows numLeds i = [] := by
  rw [firstLedLoop, dif_neg h]

/-- Length of the first-light loop when the remaining light budget is an
exact multiple of the `2*rows` stride: `2*m - 1` entries for `m` strides
(`0` for `m = 0`, using truncated subtraction). -/
theorem firstLedLoop_length (rows : Nat) (hr : 0 < rows) :
    ∀ (m i : Nat), (firstLedLoop rows (i + 2 * rows * m) i).length = 2 * m - 1 := by
  intro m
  induction m with
  | zero =>
    intro i
    rw [firstLedLoop_stop rows _ i (by omega)]
    rfl
  | succ k ih =>
    intro i
    have hpos : 0 < 2 * rows * (k + 1) := Nat.mul_pos (by omega) (by omega)
    rw [firstLedLoop_step rows _ i hr (by omega)]
    have hn : i + 2 * rows * (k + 1) = (i + 2 * rows) + 2 * rows * k := by ring
    rw [hn]
    by_cases hk : k = 0
    · subst hk
      simp only [Nat.mul_zero, Nat.add_zero, ne_eq, not_true_eq_false, if_false]
      rw [firstLedLoop_stop rows _ _ (by omega)]
      simp
    · have hkpos : 0 < 2 * rows * k := Nat.mul_pos (by omega) (Nat.pos_of_ne_zero hk)
      rw [if_pos (by omega : (i + 2 * rows) ≠ (i + 2 * rows) + 2 * rows * k)]
      simp only [List.length_append, List.length_cons, List.length_nil]
      rw [ih (i + 2 * rows)]
      omega

/-! ### Claim theorems -/

/-- Claim C1, code evaluated at the failing input: for `rows = 3, cols = 4`
and text `"0"` the 12-bit canvas is split into groups of lengths `[8, 4]`
(the hardcoded chunk size 8 of line 204), not into four groups of length
`rows = 3` as the function's own docstring and the spec require. -/
theorem claim_c1_split_at_failing_input :
    (createColumnsArray (textToBitString (3 * 4) ("0"))).map List.length = [8, 4] := by
  rw [textToBitString_eq]
  decide

/-- Claim C2, counterexample: for the valid geometry `rows = 1, cols = 1`
the constructed first-light table is `[0, 1, 2]`, of length 3, not `cols = 1`. -/
theorem claim_c2_counterexample :
    (createFirstLedNumbersArray 1 1).length ≠ 1 := by
  unfold createFirstLedNumbersArray
  norm_num
  rw [firstLedLoop_step 1 1 0 (by omega) (by omega)]
  norm_num
  rw [firstLedLoop_stop 1 1 2 (by omega)]
  decide

/-- Claim C2, amended: for every valid geometry with an even number of
columns, the first-light table built at construction has exactly `cols`
entries (for odd `cols` the loop emits two extra trailing entries). -/
theorem claim_c2_table_length_even_cols (rows cols : Nat) (hr : 0 < rows)
    (hc : 0 < cols) (he : cols % 2 = 0) :
    (createFirstLedNumbersArray rows cols).length = cols := by
  obtain ⟨m, rfl⟩ : ∃ m, cols = 2 * m := ⟨cols / 2, by omega⟩
  unfold createFirstLedNumbersArray
  have hn : rows * (2 * m) = 0 + 2 * rows * m := by ring
  rw [hn, List.length_cons, firstLedLoop_length rows hr m 0]
  omega

/-- Claim C2, witness: the amended statement at `rows = 3, cols = 4`. -/
theorem claim_c2_witness : (createFirstLedNumbersArray 3 4).length = 4 :=
  claim_c2_table_length_even_cols 3 4 (by decide) (by decide) (by decide)

/-- Claim C3, counterexample: not every glyph in the font table has the same
length; the glyph for `' '` has length 8 while the glyph for `'0'` has
length 32. -/
theorem claim_c3_counterexample :
    ¬ (∀ (c₁ c₂ : Char) (g₁ g₂ : String),
        numbersDict c₁ = some g₁ → numbersDict c₂ = some g₂ →
        g₁.length = g₂.length) := by
  intro h
  exact absurd (h ' ' '0' free zero_0 (by decide) (by decide)) (by decide)

set_option maxHeartbeats 2000000 in
/-- Claim C3, amended: every digit glyph `'0'`-`'9'` in the font table has
length 32, while the space glyph has length 8. -/
theorem claim_c3_glyph_lengths (c : Char) (g : String)
    (h : numbersDict c = some g) : g.length = if c = ' ' then 8 else 32 := by
  unfold numbersDict at h
  split_ifs at h with h1 h2 h3 h4 h5 h6 h7 h8 h9 h10 h11
  · rw [Option.some.injEq] at h; subst h; rw [if_pos h1]; rfl
  · rw [Option.some.injEq] at h; subst h; rw [if_neg h1]; rfl
  · rw [Option.some.injEq] at h; subst h; rw [if_neg h1]; rfl
  · rw [Option.some.injEq] at h; subst h; rw [if_neg h1]; rfl
  · rw [Option.some.injEq] at h; subst h; rw [if_neg h1]; rfl
  · rw [Option.some.injEq] at h; subst h; rw [if_neg h1]; rfl
  · rw [Option.some.injEq] at h; subst h; rw [if_neg h1]; rfl
  · rw [Option.some.injEq] at h; subst h; rw [if_neg h1]; rfl
  · rw [Option.some.injEq] at h; subst h; rw [if_neg h1]; rfl
  · rw [Option.some.injEq] at h; subst h; rw [if_neg h1]; rfl
  · rw [Option.some.injEq] at h; subst h; rw [if_neg h1]; rfl

/-- Claim C3, witness: the amended statement at the `'0'` entry. -/
theorem claim_c3_witness : zero_0.length = if '0' = ' ' then 8 else 32 :=
  claim_c3_glyph_lengths '0' zero_0 (by decide)

/-- Claim C4: constructing the controller with `rows ≤ 0` or `cols ≤ 0`
yields the configuration error and never a usable instance (the source
raises `ValueError` and terminates via `exit(1)`; both are embedded as
`Except.error`, so no `Controller` value is produced). -/
theorem claim_c4_invalid_geometry (rows cols : Int)
    (h : rows ≤ 0 ∨ cols ≤ 0) : ∃ msg, init rows cols = Except.error msg := by
  unfold init
  split_ifs with h1 h2
  · exact ⟨_, rfl⟩
  · exact ⟨_, rfl⟩
  · push_neg at h1 h2
    omega

/-- Claim C4, witness: `rows = 0` and `cols = -1` both fail construction. -/
theorem claim_c4_witness :
    (∃ msg, init 0 32 = Except.error msg) ∧
      (∃ msg, init 8 (-1) = Except.error msg) :=
  ⟨claim_c4_invalid_geometry 0 32 (Or.inl (by decide)),
   claim_c4_invalid_geometry 8 (-1) (Or.inr (by decide))⟩

/-- Claim C5: for `rows = 3, cols = 4` the first-light table built at
construction is exactly `[0, 5, 6, 11]`. -/
theorem claim_c5_table_3_4 : createFirstLedNumbersArray 3 4 = [0, 5, 6, 11] := by
  unfold createFirstLedNumbersArray
  norm_num
  rw [firstLedLoop_step 3 12 0 (by omega) (by omega)]
  norm_num
  rw [firstLedLoop_step 3 12 6 (by omega) (by omega)]
  norm_num
  rw [firstLedLoop_stop 3 12 12 (by omega)]

/-- Claim C6: for every valid geometry and every text, `run` returns a
sequence of length exactly `rows * cols` whose every value is 0 or 1. -/
theorem claim_c6_length_and_bits (rows cols : Nat) (t : String)
    (hr : 0 < rows) (hc : 0 < cols) :
    (run rows cols t).length = rows * cols ∧
      ∀ x ∈ run rows cols t, x = 0 ∨ x = 1 := by
  have hperm := run_perm_textToBitString rows cols t
  refine ⟨hperm.length_eq.trans (textToBitString_length _ _), ?_⟩
  intro x hx
  exact mem_textToBitString _ _ x (hperm.subset hx)

/-- Claim C6, witness: the statement at `rows = 3, cols = 4`, text `"0"`. -/
theorem claim_c6_witness :
    (run 3 4 ("0")).length = 3 * 4 ∧ ∀ x ∈ run 3 4 ("0"), x = 0 ∨ x = 1 :=
  claim_c6_length_and_bits 3 4 ("0") (by decide) (by decide)

/-- Claim C7, counterexample: at `rows = 8, cols = 2` and text `"2"` the
encoding (32 bits) exceeds `rows * cols = 16`, yet the value returned by
`run` is not the 16-bit prefix of the untruncated encoding — the second
8-bit group has been reversed by the arrangement step. -/
theorem claim_c7_counterexample :
    (rawEncoding ("2")).length > 8 * 2 ∧
      run 8 2 ("2") ≠ (rawEncoding ("2")).take (8 * 2) := by
  refine ⟨by decide, ?_⟩
  unfold run
  rw [textToBitString_eq]
  decide

/-- Claim C7, amended: when the encoded glyph sequence is longer than
`rows * cols`, the bit canvas is the `rows * cols`-bit prefix of the
untruncated encoding, and the value returned by `run` is the arranged
(column-split, odd-groups-reversed) form of that prefix. -/
theorem claim_c7_truncation (rows cols : Nat) (t : String)
    (h : (rawEncoding t).length > rows * cols) :
    textToBitString (rows * cols) t = (rawEncoding t).take (rows * cols) ∧
      run rows cols t =
        arrangeArray (createColumnsArray ((rawEncoding t).take (rows * cols))) := by
  have h1 : textToBitString (rows * cols) t = (rawEncoding t).take (rows * cols) := by
    rw [textToBitString_eq]
    have h0 : rows * cols - (rawEncoding t).length = 0 := by omega
    rw [h0]
    simp
  refine ⟨h1, ?_⟩
  unfold run
  rw [h1]

/-- Claim C7, witness: the amended statement at `rows = 8, cols = 2`,
text `"2"`. -/
theorem claim_c7_witness :
    textToBitString (8 * 2) ("2") = (rawEncoding ("2")).take (8 * 2) ∧
      run 8 2 ("2") =
        arrangeArray (createColumnsArray ((rawEncoding ("2")).take (8 * 2))) :=
  claim_c7_truncation 8 2 ("2") (by decide)

/-- Claim C8: unsupported characters are silently dropped, so for every
fixed valid geometry `run "1a2"` equals `run "12"`. -/
theorem claim_c8_drop_unsupported (rows cols : Nat) (hr : 0 < rows)
    (hc : 0 < cols) : run rows cols ("1a2") = run rows cols ("12") := by
  have hf : rawEncoding ("1a2") = rawEncoding ("12") := by decide
  unfold run textToBitString
  rw [hf]

/-- Claim C8, witness: the statement at `rows = 3, cols = 4`. -/
theorem claim_c8_witness : run 3 4 ("1a2") = run 3 4 ("12") :=
  claim_c8_drop_unsupported 3 4 (by decide) (by decide)

/-- Claim C9: for every valid geometry, rendering the empty string yields
the all-zero sequence of length `rows * cols`. -/
theorem claim_c9_empty_all_zero (rows cols : Nat) (hr : 0 < rows)
    (hc : 0 < cols) : run rows cols ("") = List.replicate (rows * cols) 0 := by
  have hcanvas : textToBitString (rows * cols) ("") = List.replicate (rows * cols) 0 := by
    rw [textToBitString_eq]
    have h0 : rawEncoding ("") = [] := rfl
    rw [h0]
    simp
  have hperm := run_perm_textToBitString rows cols ("")
  rw [hcanvas] at hperm
  exact List.perm_replicate.mp hperm

/-- Claim C9, witness: the statement at `rows = 3, cols = 4`. -/
theorem claim_c9_witness : run 3 4 ("") = List.replicate (3 * 4) 0 :=
  claim_c9_empty_all_zero 3 4 (by decide) (by decide)

/-- Claim C10: for every valid geometry and text, the value returned by
`run` (with `show = False`, which does not affect the result) is a
permutation of the bit canvas: same length and same number of 1 bits, since
each group is only kept or reversed and then concatenated. -/
theorem claim_c10_permutation (rows cols : Nat) (t : String) (hr : 0 < rows)
    (hc : 0 < cols) :
    (run rows cols t).Perm (textToBitString (rows * cols) t) ∧
      (run rows cols t).length = (textToBitString (rows * cols) t).length ∧
      (run rows cols t).count 1 = (textToBitString (rows * cols) t).count 1 := by
  have hperm := run_perm_textToBitString rows cols t
  exact ⟨hperm, hperm.length_eq, hperm.count_eq 1⟩

/-- Claim C10, witness: the statement at `rows = 3, cols = 4`, text `"0"`. -/
theorem claim_c10_witness :
    (run 3 4 ("0")).Perm (textToBitString (3 * 4) ("0")) ∧
      (run 3 4 ("0")).length = (textToBitString (3 * 4) ("0")).length ∧
      (run 3 4 ("0")).count 1 = (textToBitString (3 * 4) ("0")).count 1 :=
  claim_c10_permutation 3 4 ("0") (by decide) (by decide)

end LedControllerWS281X
